import Mathlib

/-
Verification of the rerun file-watcher (src/main.go).

The program watches a directory tree and re-executes a shell command on
every filesystem event.  We shallowly embed:

  * the `Rerun` struct (WaitGroup counter, `exiting` flag, the
    `context.CancelFunc` slot, the watched-path set) as `RerunState`;
  * `Start` / `Stop` / `cleanup` and the signal handler as state
    transformers that also emit a trace of execution begin/end actions;
  * the main event loop (lines 181-207) as a fold over a list of events;
  * `WatchDir` together with `filepath.Walk` (Go stdlib semantics:
    `SkipDir` prunes a subtree, any other non-nil error aborts the whole
    traversal) as structural recursion over a file tree.

Context generations: each call to `context.WithCancel` is modelled by a
fresh natural number `nextCtx`; the set of generations whose cancel
function has been invoked is `cancelled`.  A nil `context.CancelFunc`
(the zero value of the `cancel` field before the first `Start`) is
`none`; invoking it is a runtime panic, modelled as `StopErr.nilCancelPanic`.
`r.Wait()` returning is modelled by the counter reaching zero; a `Wait`
that could never return is `StopErr.blocked`.
-/

/-- fsnotify.Op bit for Create. -/
def opCreate : Nat := 1

/-- fsnotify.Op bit for Write. -/
def opWrite : Nat := 2

/-- fsnotify.Op bit for Remove. -/
def opRemove : Nat := 4

/-- fsnotify.Op bit for Rename. -/
def opRename : Nat := 8

/-- fsnotify.Op bit for Chmod. -/
def opChmod : Nat := 16

/-- One fsnotify event: a path and an operation bitmask. -/
structure Event where
  name : String
  op : Nat
deriving DecidableEq, Repr

/-- Result of os.Stat relevant to the program: base name and directory bit. -/
structure FileInfo where
  name : String
  isDir : Bool
deriving DecidableEq, Repr

/-- Trace actions: an execution goroutine beginning (Start launched it)
and ending (its context was cancelled and `r.Done()` ran).  The payload
is the context generation the execution was started with. -/
inductive ExecAction where
  | execBegin (gen : Nat)
  | execEnd (gen : Nat)
deriving DecidableEq, Repr

/-- Ways a call to Stop can fail to return normally: invoking a nil
`context.CancelFunc` panics; `r.Wait()` with an uncancelled tracked
goroutine blocks forever. -/
inductive StopErr where
  | nilCancelPanic
  | blocked
deriving DecidableEq, Repr

/-- The `Rerun` struct (src/main.go lines 22-28) plus the bookkeeping
needed to interpret it: the embedded `sync.WaitGroup` is `counter`, the
`context.CancelFunc` field is `cancel` (the generation it would cancel,
`none` when the Go field is nil), `cancelled` records which generations
have been cancelled, `nextCtx` supplies fresh generations, `activeExec`
is the generation of the currently tracked goroutine (if any), `watched`
is the watcher's path set, and `watcherClosed` records `watcher.Close()`. -/
structure RerunState where
  command : String
  exiting : Bool
  cancel : Option Nat
  cancelled : List Nat
  nextCtx : Nat
  counter : Nat
  activeExec : Option Nat
  watched : List String
  watcherClosed : Bool
deriving DecidableEq, Repr

/-- The state `NewRerun` (lines 108-141) leaves the struct in, given the
command string and the watched set produced by the startup traversal:
`exiting` is false and the `cancel` field still holds its nil zero value. -/
def initState (command : String) (watched0 : List String) : RerunState :=
  { command := command
    exiting := false
    cancel := none
    cancelled := []
    nextCtx := 0
    counter := 0
    activeExec := none
    watched := watched0
    watcherClosed := false }

/-- Rerun.Start (lines 31-64).  A fresh context and cancel function are
created and stored unconditionally (line 36) — before the `exiting`
check.  Only when `exiting` is false does Start increment the WaitGroup
and launch the goroutine (emitting `execBegin`). -/
def start (s : RerunState) : RerunState × List ExecAction :=
  let g := s.nextCtx
  let s1 : RerunState := { s with cancel := some g, nextCtx := g + 1 }
  if s1.exiting = false then
    ({ s1 with counter := s1.counter + 1, activeExec := some g },
     [ExecAction.execBegin g])
  else
    (s1, [])

/-- Rerun.Stop (lines 67-73): invoke `r.cancel()` then `r.Wait()`.
A nil cancel function panics.  Cancelling generation `g` lets the
tracked goroutine return (it selects on its context's Done channel) and
run its deferred `r.Done()`; `Wait` returns once the counter is zero. -/
def stop (s : RerunState) : Except StopErr (RerunState × List ExecAction) :=
  match s.cancel with
  | none => Except.error StopErr.nilCancelPanic
  | some g =>
    let s1 : RerunState := { s with cancelled := g :: s.cancelled }
    match s1.activeExec with
    | some a =>
      if a ∈ s1.cancelled then
        let s2 : RerunState :=
          { s1 with activeExec := none, counter := s1.counter - 1 }
        if s2.counter = 0 then Except.ok (s2, [ExecAction.execEnd a])
        else Except.error StopErr.blocked
      else Except.error StopErr.blocked
    | none =>
      if s1.counter = 0 then Except.ok (s1, [])
      else Except.error StopErr.blocked

/-- Rerun.WatchDir (lines 76-92) acting on the watched-path set.
`WalkRet.skipDir` is `filepath.SkipDir`; `WalkRet.failed` is a non-nil
error from `watcher.Add`, which WatchDir returns (line 91). -/
inductive WalkRet where
  | ok
  | skipDir
  | failed
deriving DecidableEq, Repr

/-- Rerun.WatchDir body: for a directory named ".git" return SkipDir;
otherwise try to register the path (`addOk` says whether `watcher.Add`
succeeds; on failure the path is not registered, the error is logged and
returned).  For a non-directory the incoming nil error is returned. -/
def watchDirFn (addOk : String → Bool) (watched : List String)
    (path name : String) (isDir : Bool) : List String × WalkRet :=
  if isDir then
    if name = ".git" then (watched, WalkRet.skipDir)
    else if addOk path then (path :: watched, WalkRet.ok)
    else (watched, WalkRet.failed)
  else (watched, WalkRet.ok)

/-- Rerun.UnwatchDir (lines 95-100): `watcher.Remove` unregisters the
path from the watch set (an error for an unwatched path is ignored). -/
def unwatchDir (watched : List String) (path : String) : List String :=
  List.filter (fun q => q != path) watched

/-- The watched-set update performed by the event loop body for one
event (lines 188-200): if the Create bit is set, stat the path (failure
is logged and non-fatal) and hand the result to WatchDir, discarding its
return value (line 193); if the Remove bit is set, call UnwatchDir. -/
def eventWatched (statFn : String → Option FileInfo) (addOk : String → Bool)
    (w : List String) (e : Event) : List String :=
  let w1 :=
    if e.op &&& opCreate = opCreate then
      match statFn e.name with
      | none => w
      | some fi => (watchDirFn addOk w e.name fi.name fi.isDir).1
    else w
  if e.op &&& opRemove = opRemove then unwatchDir w1 e.name else w1

/-- One iteration of the main event loop (lines 183-205): update the
watch set for the event, then `run.Stop()` followed by `run.Start()`. -/
def processEvent (statFn : String → Option FileInfo) (addOk : String → Bool)
    (s : RerunState) (e : Event) : Except StopErr (RerunState × List ExecAction) :=
  let s2 : RerunState := { s with watched := eventWatched statFn addOk s.watched e }
  match stop s2 with
  | Except.error err => Except.error err
  | Except.ok (s3, a3) =>
    let p := start s3
    Except.ok (p.1, a3 ++ p.2)

/-- The main event loop (lines 181-207) consuming a finite prefix of the
event stream, accumulating the trace. -/
def runEvents (statFn : String → Option FileInfo) (addOk : String → Bool) :
    RerunState → List Event → Except StopErr (RerunState × List ExecAction)
  | s, [] => Except.ok (s, [])
  | s, e :: es =>
    match processEvent statFn addOk s e with
    | Except.error err => Except.error err
    | Except.ok (s1, a1) =>
      match runEvents statFn addOk s1 es with
      | Except.error err => Except.error err
      | Except.ok (s2, a2) => Except.ok (s2, a1 ++ a2)

/-- main (lines 154-207) after startup: the initial `run.Start()`
(line 178) followed by the event loop. -/
def runMain (statFn : String → Option FileInfo) (addOk : String → Bool)
    (command : String) (watched0 : List String) (events : List Event) :
    Except StopErr (RerunState × List ExecAction) :=
  let p := start (initState command watched0)
  match runEvents statFn addOk p.1 events with
  | Except.error err => Except.error err
  | Except.ok (s2, a2) => Except.ok (s2, p.2 ++ a2)

/-- Rerun.cleanup (lines 145-152): set `exiting`, call Stop, close the
filesystem watcher. -/
def cleanup (s : RerunState) : Except StopErr (RerunState × List ExecAction) :=
  let s1 : RerunState := { s with exiting := true }
  match stop s1 with
  | Except.error err => Except.error err
  | Except.ok (s2, acts) => Except.ok ({ s2 with watcherClosed := true }, acts)

/-- The signal-handler goroutine (lines 134-138): on an interrupt or
SIGTERM, run cleanup and call `os.Exit(1)`.  The final `Nat` is the
process exit status. -/
def onSignal (s : RerunState) : Except StopErr (RerunState × List ExecAction × Nat) :=
  match cleanup s with
  | Except.error err => Except.error err
  | Except.ok (s1, acts) => Except.ok (s1, acts, 1)

/- A file tree: a file or a directory with a list of children.  Mutual
with FsForest so that recursion and induction stay structural. -/
mutual
inductive FsNode where
  | file : String → FsNode
  | dir : String → FsForest → FsNode
deriving DecidableEq, Repr

inductive FsForest where
  | nil : FsForest
  | cons : FsNode → FsForest → FsForest
deriving DecidableEq, Repr
end

/-- Base name of a tree node. -/
def nodeName : FsNode → String
  | FsNode.file n => n
  | FsNode.dir n _ => n

/- filepath.Walk (Go stdlib) driving Rerun.WatchDir, as called by
NewRerun (line 129).  Walk visits the node itself first; SkipDir from
a directory prunes that subtree and the walk continues; any other
non-nil error returned by the walk function aborts the whole traversal
(the Boolean result is false when that happened).  For a file, WatchDir
returns the incoming nil error.  Registered paths accumulate in w. -/
mutual
def walkNode (addOk : String → Bool) (path : String) (n : FsNode)
    (w : List String) : List String × Bool :=
  match n with
  | FsNode.file _ => (w, true)
  | FsNode.dir name cs =>
    match watchDirFn addOk w path name true with
    | (w1, WalkRet.skipDir) => (w1, true)
    | (w1, WalkRet.ok) => walkForest addOk path cs w1
    | (w1, WalkRet.failed) => (w1, false)

def walkForest (addOk : String → Bool) (base : String) (f : FsForest)
    (w : List String) : List String × Bool :=
  match f with
  | FsForest.nil => (w, true)
  | FsForest.cons c rest =>
    let r := walkNode addOk (base ++ "/" ++ nodeName c) c w
    if r.2 then walkForest addOk base rest r.1 else r
end

/- Modelled from the spec: the directories reachable from the root,
pruned at every directory whose name is the version-control metadata
directory name ".git" (neither such a directory nor any descendant is
listed), in preorder. -/
mutual
def dirsExceptGit (path : String) (n : FsNode) : List String :=
  match n with
  | FsNode.file _ => []
  | FsNode.dir name cs =>
    if name = ".git" then [] else path :: forestDirsExceptGit path cs

def forestDirsExceptGit (base : String) (f : FsForest) : List String :=
  match f with
  | FsForest.nil => []
  | FsForest.cons c rest =>
    dirsExceptGit (base ++ "/" ++ nodeName c) c ++ forestDirsExceptGit base rest
end

/-- The effectful steps of the goroutine body launched by Start
(lines 42-62), in execution order: wire the MultiWriters, `cmd.Start()`,
block in the select on the context's Done channel, then the deferred
`r.Done()`.  Steps that do NOT occur anywhere in the body also have
constructors, so their absence is expressible: `reapProcess` would be a
`cmd.Wait()` call (reap the child, drain and flush its pipes) and
`flushStreams` an explicit drain of the output streams. -/
inductive GoStep where
  | setupMultiWriters
  | spawnProcess
  | awaitCtxDone
  | wgDone
  | reapProcess
  | flushStreams
deriving DecidableEq, Repr

/-- The goroutine body of Start as the ordered list of its steps.  The
for/select loop (lines 55-61) waits only on `ctx.Done()` and returns;
no `cmd.Wait()` appears anywhere in src/main.go. -/
def goroutineBody : List GoStep := [GoStep.setupMultiWriters, GoStep.spawnProcess,
  GoStep.awaitCtxDone, GoStep.wgDone]

/-- The syscall.SysProcAttr a Go exec.Cmd may carry; the program would
need at least `Setpgid` to place the shell in its own process group. -/
structure SysProcAttr where
  setpgid : Bool
deriving DecidableEq, Repr

/-- The exec.Cmd built by Start (line 46): `exec.CommandContext(ctx,
"sh", "-c", r.Command)` with no SysProcAttr ever assigned. -/
structure CmdSpec where
  path : String
  args : List String
  sysProcAttr : Option SysProcAttr
deriving DecidableEq, Repr

/-- The command value constructed at line 46. -/
def startCmd (command : String) : CmdSpec :=
  { path := "sh", args := ["-c", command], sysProcAttr := none }

/-- Who receives the termination signal when the context is cancelled. -/
inductive SignalTarget where
  | singleProcess
  | processGroup
deriving DecidableEq, Repr

/-- Modelled Go os/exec semantics: cancelling the context of a command
built by exec.CommandContext calls os.Process.Kill, which signals only
the process itself, never the process group; reaching the whole group
would require at least a SysProcAttr with Setpgid set (plus signalling
the negated group id), which this program never configures. -/
def cmdSignalTarget (c : CmdSpec) : SignalTarget :=
  match c.sysProcAttr with
  | none => SignalTarget.singleProcess
  | some a => if a.setpgid then SignalTarget.processGroup
              else SignalTarget.singleProcess

/-- The two channels the fsnotify watcher exposes. -/
inductive WatcherChan where
  | events
  | errors
deriving DecidableEq, Repr

/-- The channels read by the select statement of the main loop
(lines 182-206): only `run.Events()`.  `watcher.Errors` is referenced
nowhere in src/main.go. -/
def mainSelectChans : List WatcherChan := [WatcherChan.events]

/-- Rerun.Events (lines 103-105) returns the watcher's Events channel. -/
def eventsChanOfRerun : WatcherChan := WatcherChan.events

/-- The main loop with the watcher's error stream made explicit: the
select never has a case for `watcher.Errors`, so the error stream is not
an input of the loop at all. -/
def runMainFull (statFn : String → Option FileInfo) (addOk : String → Bool)
    (command : String) (watched0 : List String) (events : List Event)
    (_errorStream : List String) : Except StopErr (RerunState × List ExecAction) :=
  runMain statFn addOk command watched0 events

/-- Step function of the non-overlap check on a trace: the state is
`some b` with `b` true iff an execution is currently active, or `none`
once two executions have overlapped or an end had no matching begin. -/
def execStep : Option Bool → ExecAction → Option Bool
  | none, _ => none
  | some b, ExecAction.execBegin _ => if b then none else some true
  | some b, ExecAction.execEnd _ => if b then some false else none

/-- Run the non-overlap check over a trace from a given state. -/
def execScan (acts : List ExecAction) (st : Option Bool) : Option Bool :=
  acts.foldl execStep st

/-- Number of execution starts in a trace. -/
def beginCount (acts : List ExecAction) : Nat :=
  (acts.filter fun a => match a with
    | ExecAction.execBegin _ => true
    | _ => false).length

/-- Number of execution completions in a trace. -/
def endCount (acts : List ExecAction) : Nat :=
  (acts.filter fun a => match a with
    | ExecAction.execEnd _ => true
    | _ => false).length

/-- The state invariant maintained by the main loop between events: not
exiting, exactly one tracked goroutine whose generation is the one the
current cancel function would cancel, that generation not yet cancelled,
and all recorded generations below the fresh-generation counter. -/
@[reducible] def LoopInv (s : RerunState) : Prop :=
  s.exiting = false ∧
  s.counter = 1 ∧
  s.cancel = s.activeExec ∧
  s.activeExec.isSome = true ∧
  (∀ a ∈ s.activeExec.toList, a ∉ s.cancelled ∧ a < s.nextCtx) ∧
  (∀ c ∈ s.cancelled, c < s.nextCtx)

/-- A representative mid-loop state: one execution (generation 0)
running, context generation 1 fresh, directory "root" watched. -/
def sLoop : RerunState :=
  { command := "make"
    exiting := false
    cancel := some 0
    cancelled := []
    nextCtx := 1
    counter := 1
    activeExec := some 0
    watched := ["root"]
    watcherClosed := false }

/-- A state with `exiting` already set (the signal handler ran), used to
exercise Start's behaviour during shutdown. -/
def sExit : RerunState :=
  { command := "make"
    exiting := true
    cancel := some 5
    cancelled := [5]
    nextCtx := 7
    counter := 0
    activeExec := none
    watched := []
    watcherClosed := false }

/-- The state after one Start followed by one Stop: no execution active,
generation 0 cancelled, the cancel function still that of generation 0. -/
def sIdle : RerunState :=
  { command := "make"
    exiting := false
    cancel := some 0
    cancelled := [0]
    nextCtx := 1
    counter := 0
    activeExec := none
    watched := ["root"]
    watcherClosed := false }

/-- Stat function for the witness run: "newdir" exists and is a directory. -/
def statW : String → Option FileInfo :=
  fun p => if p = "newdir" then some { name := "newdir", isDir := true } else none

/-- Stat function under which "proj/.git" exists and is a directory. -/
def statGit : String → Option FileInfo :=
  fun p => if p = "proj/.git" then some { name := ".git", isDir := true } else none

/-- watcher.Add always succeeds. -/
def addOkTrue : String → Bool := fun _ => true

/-- A create event for the new directory "newdir". -/
def eCreate : Event := { name := "newdir", op := opCreate }

/-- A create event for a directory named ".git". -/
def eGit : Event := { name := "proj/.git", op := opCreate }

/-- Tree root/{a, b} with two empty subdirectories. -/
def treeC6 : FsNode :=
  FsNode.dir "root" (FsForest.cons (FsNode.dir "a" FsForest.nil)
    (FsForest.cons (FsNode.dir "b" FsForest.nil) FsForest.nil))

/-- watcher.Add fails exactly for "root/a". -/
def addOkC6 : String → Bool := fun p => p != "root/a"

/-- Stop on a loop state: cancelling the running generation lets the
goroutine finish, and Stop returns with the counter at zero. -/
lemma stop_eq_of_active (s : RerunState) (a : Nat) (hc : s.cancel = some a)
    (hae : s.activeExec = some a) (hco : s.counter = 1) :
    stop s = Except.ok
      ({ s with cancelled := a :: s.cancelled, activeExec := none, counter := 0 },
       [ExecAction.execEnd a]) := by
  obtain ⟨cmd, ex, cl, cld, nc, co, ae, w, wc⟩ := s
  dsimp only at hc hae hco ⊢
  subst hc; subst hae; subst hco
  simp [stop]

/-- Start on a non-exiting state: a fresh context is stored, the counter
is incremented and the goroutine launched. -/
lemma start_eq_of_not_exiting (s : RerunState) (hex : s.exiting = false) :
    start s = ({ s with
        cancel := some s.nextCtx,
        nextCtx := s.nextCtx + 1,
        counter := s.counter + 1,
        activeExec := some s.nextCtx },
      [ExecAction.execBegin s.nextCtx]) := by
  obtain ⟨cmd, ex, cl, cld, nc, co, ae, w, wc⟩ := s
  dsimp only at hex ⊢
  subst hex
  simp [start]

/-- One event-loop iteration from a loop state: the watch set is updated
for the event, the running execution (generation a) is stopped and a new
one (the fresh generation) started, in that order. -/
lemma processEvent_eq (statFn : String → Option FileInfo) (addOk : String → Bool)
    (s : RerunState) (e : Event) (a : Nat) (hex : s.exiting = false)
    (hc : s.cancel = some a) (hae : s.activeExec = some a) (hco : s.counter = 1) :
    processEvent statFn addOk s e =
      Except.ok ({ s with
          watched := eventWatched statFn addOk s.watched e,
          cancelled := a :: s.cancelled,
          cancel := some s.nextCtx,
          activeExec := some s.nextCtx,
          nextCtx := s.nextCtx + 1,
          counter := 1 },
        [ExecAction.execEnd a, ExecAction.execBegin s.nextCtx]) := by
  obtain ⟨cmd, ex, cl, cld, nc, co, ae, w, wc⟩ := s
  dsimp only at hex hc hae hco ⊢
  subst hex; subst hc; subst hae; subst hco
  simp [processEvent, stop, start]

/-- The state reached after the loop handles one event from a loop state
again satisfies the loop invariant. -/
lemma loopInv_next (s : RerunState) (a : Nat) (h : LoopInv s)
    (hae : s.activeExec = some a) (wNew : List String) :
    LoopInv { s with
      watched := wNew,
      cancelled := a :: s.cancelled,
      cancel := some s.nextCtx,
      activeExec := some s.nextCtx,
      nextCtx := s.nextCtx + 1,
      counter := 1 } := by
  obtain ⟨h1, h2, h3, h4, h5, h6⟩ := h
  have ha := h5 a (by simp [hae])
  have ha2 := ha.2
  unfold LoopInv
  dsimp only
  refine ⟨h1, rfl, rfl, rfl, ?_, ?_⟩
  · intro x hx
    simp only [Option.toList_some, List.mem_singleton] at hx
    subst hx
    refine ⟨?_, by omega⟩
    intro hmem
    simp only [List.mem_cons] at hmem
    rcases hmem with h' | h'
    · omega
    · have := h6 _ h'; omega
  · intro c hcm
    simp only [List.mem_cons] at hcm
    rcases hcm with rfl | hcm
    · omega
    · have := h6 _ hcm; omega

/-- The state reached by the initial `run.Start()` in main. -/
lemma start_init (command : String) (watched0 : List String) :
    start (initState command watched0) =
      ({ command := command, exiting := false, cancel := some 0, cancelled := [],
         nextCtx := 1, counter := 1, activeExec := some 0, watched := watched0,
         watcherClosed := false }, [ExecAction.execBegin 0]) := rfl

/-- The loop invariant holds when the main loop is first entered. -/
lemma loopInv_start (command : String) (watched0 : List String) :
    LoopInv (start (initState command watched0)).1 := by
  rw [start_init]
  refine ⟨rfl, rfl, rfl, rfl, ?_, ?_⟩ <;> intro x hx <;> simp_all

/-- Main-loop correctness: from any loop state, consuming any finite
event list succeeds (never panics, never deadlocks), preserves the loop
invariant, and produces a trace in which executions never overlap and
each event contributes exactly one completion and one start. -/
lemma runEvents_spec (statFn : String → Option FileInfo) (addOk : String → Bool) :
    ∀ (events : List Event) (s : RerunState), LoopInv s →
      ∃ s2 acts, runEvents statFn addOk s events = Except.ok (s2, acts) ∧
        LoopInv s2 ∧ execScan acts (some true) = some true ∧
        beginCount acts = events.length ∧ endCount acts = events.length := by
  intro events
  induction events with
  | nil =>
    intro s h
    exact ⟨s, [], rfl, h, rfl, rfl, rfl⟩
  | cons e es ih =>
    intro s h
    obtain ⟨h1, h2, h3, h4, h5, h6⟩ := h
    obtain ⟨a, hae⟩ := Option.isSome_iff_exists.mp h4
    have hc : s.cancel = some a := by rw [h3, hae]
    have hpe := processEvent_eq statFn addOk s e a h1 hc hae h2
    have hInvNew := loopInv_next s a ⟨h1, h2, h3, h4, h5, h6⟩ hae
      (eventWatched statFn addOk s.watched e)
    obtain ⟨s2, a2, hrun, hinv2, hscan, hb, hen⟩ := ih _ hInvNew
    refine ⟨s2, [ExecAction.execEnd a, ExecAction.execBegin s.nextCtx] ++ a2,
      ?_, hinv2, ?_, ?_, ?_⟩
    · simp only [runEvents, hpe, hrun]
    · simpa [execScan, execStep] using hscan
    · simp [beginCount] at hb ⊢
      omega
    · simp [endCount] at hen ⊢
      omega

/- When every watcher.Add call succeeds, the startup traversal registers
exactly the reachable directories outside .git subtrees (accumulator
form, proved by mutual structural induction on the tree). -/
mutual
lemma walkNode_allOk (path : String) (n : FsNode) (w : List String) :
    walkNode addOkTrue path n w = ((dirsExceptGit path n).reverse ++ w, true) := by
  cases n with
  | file nm => simp [walkNode, dirsExceptGit]
  | dir nm cs =>
    by_cases hg : nm = ".git"
    · simp [walkNode, dirsExceptGit, watchDirFn, hg]
    · have ih := walkForest_allOk path cs (path :: w)
      simp [walkNode, dirsExceptGit, watchDirFn, hg, addOkTrue, ih]

lemma walkForest_allOk (base : String) (f : FsForest) (w : List String) :
    walkForest addOkTrue base f w =
      ((forestDirsExceptGit base f).reverse ++ w, true) := by
  cases f with
  | nil => simp [walkForest, forestDirsExceptGit]
  | cons c rest =>
    have ih1 := walkNode_allOk (base ++ "/" ++ nodeName c) c w
    have ih2 := walkForest_allOk base rest
      ((dirsExceptGit (base ++ "/" ++ nodeName c) c).reverse ++ w)
    simp [walkForest, forestDirsExceptGit, ih1, ih2]
end

/-- The name cannot sit in the watch set after UnwatchDir removed it. -/
lemma not_mem_unwatchDir (w : List String) (p : String) : p ∉ unwatchDir w p := by
  intro hmem
  have := List.mem_filter.mp hmem
  simp at this

/-- C1: for every sequence of filesystem events consumed by the main
loop, the run succeeds (Stop never panics or blocks) and the execution
trace never has two executions active at once: scanning the trace from
the inactive state never sees a begin while active nor an end while
inactive, every event contributes exactly one completion followed by one
start, and `stop` only ever returns in states whose completion tracker
is zero (by construction of `stop`), so the restart for event N is
complete before the next execution begins and before event N+1 is read. -/
theorem c1_single_active_execution (statFn : String → Option FileInfo)
    (addOk : String → Bool) (command : String) (watched0 : List String)
    (events : List Event) :
    ∃ s acts, runMain statFn addOk command watched0 events = Except.ok (s, acts) ∧
      execScan acts (some false) = some true ∧
      beginCount acts = events.length + 1 ∧
      endCount acts = events.length := by
  have hInv0 : LoopInv
      { command := command
        exiting := false
        cancel := some 0
        cancelled := []
        nextCtx := 1
        counter := 1
        activeExec := some 0
        watched := watched0
        watcherClosed := false } := by
    refine ⟨rfl, rfl, rfl, rfl, ?_, ?_⟩ <;> intro x hx <;> simp_all
  obtain ⟨s2, a2, hrun, _, hscan, hb, he⟩ := runEvents_spec statFn addOk events _ hInv0
  refine ⟨s2, ExecAction.execBegin 0 :: a2, ?_, ?_, ?_, ?_⟩
  · simp only [runMain, start_init]
    rw [hrun]
    rfl
  · simpa [execScan, execStep] using hscan
  · simp [beginCount] at hb ⊢
    omega
  · simp [endCount] at he ⊢
    omega

/-- C2 (amended): from any loop state, every event causes exactly one
Stop-then-Start restart (the trace of the iteration is one completion
followed by one start); when the Remove bit is set the path is
unregistered unconditionally; when the Create bit is set, the path is
stat'ed (failure non-fatal) and, when it resolves to a directory whose
base name is not ".git" and registration succeeds, it is added to the
watch set. -/
theorem c2_event_restart_and_watchset (statFn : String → Option FileInfo)
    (addOk : String → Bool) (s : RerunState) (e : Event) (a : Nat)
    (h : LoopInv s) (hae : s.activeExec = some a) :
    processEvent statFn addOk s e =
      Except.ok ({ s with
          watched := eventWatched statFn addOk s.watched e,
          cancelled := a :: s.cancelled,
          cancel := some s.nextCtx,
          activeExec := some s.nextCtx,
          nextCtx := s.nextCtx + 1,
          counter := 1 },
        [ExecAction.execEnd a, ExecAction.execBegin s.nextCtx]) ∧
    (e.op &&& opRemove = opRemove →
      e.name ∉ eventWatched statFn addOk s.watched e) ∧
    (e.op &&& opCreate = opCreate → ¬(e.op &&& opRemove = opRemove) →
      Option.any (fun fi => fi.isDir && (fi.name != ".git") && addOk e.name)
        (statFn e.name) = true →
      e.name ∈ eventWatched statFn addOk s.watched e) := by
  refine ⟨processEvent_eq statFn addOk s e a h.1 (by rw [h.2.2.1, hae]) hae h.2.1,
    ?_, ?_⟩
  · intro hrem
    simp only [eventWatched, hrem, if_pos]
    exact not_mem_unwatchDir _ _
  · intro hcr hnr hany
    cases ho : statFn e.name with
    | none => rw [ho] at hany; simp [Option.any] at hany
    | some fi =>
      rw [ho] at hany
      simp only [Option.any, Bool.and_eq_true, bne_iff_ne] at hany
      obtain ⟨⟨hd, hn⟩, hok⟩ := hany
      simp [eventWatched, hcr, hnr, ho, watchDirFn, hd, hn, hok]

/-- C2 counterexample to the claim as stated: a create event whose path
stats to a directory (named ".git") is processed, yet the path is not
added to the watch set — WatchDir skips directories named ".git". -/
theorem c2_gitdir_create_not_added :
    eGit.op &&& opCreate = opCreate ∧
    statGit eGit.name = some { name := ".git", isDir := true } ∧
    processEvent statGit addOkTrue sLoop eGit =
      Except.ok
        ({ command := "make"
           exiting := false
           cancel := some 1
           cancelled := [0]
           nextCtx := 2
           counter := 1
           activeExec := some 1
           watched := ["root"]
           watcherClosed := false },
         [ExecAction.execEnd 0, ExecAction.execBegin 1]) ∧
    eGit.name ∉ (["root"] : List String) := by
  refine ⟨rfl, rfl, rfl, ?_⟩
  decide

/-- C2 witness: a create event for a fresh directory "newdir" in a loop
state really does get added, and the iteration's trace is exactly one
completion and one start. -/
theorem c2_event_restart_and_watchset_witness :
    LoopInv sLoop ∧ sLoop.activeExec = some 0 ∧
    "newdir" ∈ eventWatched statW addOkTrue sLoop.watched eCreate ∧
    processEvent statW addOkTrue sLoop eCreate =
      Except.ok ({ sLoop with
          watched := eventWatched statW addOkTrue sLoop.watched eCreate,
          cancelled := [0],
          cancel := some 1,
          activeExec := some 1,
          nextCtx := 2,
          counter := 1 },
        [ExecAction.execEnd 0, ExecAction.execBegin 1]) :=
  ⟨by decide, rfl,
    (c2_event_restart_and_watchset statW addOkTrue sLoop eCreate 0
      (by decide) rfl).2.2 rfl (by decide) rfl,
    (c2_event_restart_and_watchset statW addOkTrue sLoop eCreate 0
      (by decide) rfl).1⟩

/-- C3: the goroutine launched by Start never calls cmd.Wait — it only
selects on the context's Done channel and then runs the deferred
r.Done() — so the child process is never reaped and its output streams
are never drained before Stop's Wait returns: the claim that Stop
returns only after the process is reaped and flushed is false of the
code (the completion tracker does reach zero, but that tracks only the
goroutine). -/
theorem c3_stop_returns_without_reaping :
    GoStep.reapProcess ∉ goroutineBody ∧
    GoStep.flushStreams ∉ goroutineBody ∧
    GoStep.awaitCtxDone ∈ goroutineBody := by
  decide

/-- C4: the command is built with exec.CommandContext and no SysProcAttr,
so cancelling the context signals only the immediate sh process, never
the process group: shell-spawned subprocesses are not terminated. -/
theorem c4_cancel_kills_only_shell_process (command : String) :
    cmdSignalTarget (startCmd command) = SignalTarget.singleProcess ∧
    cmdSignalTarget (startCmd command) ≠ SignalTarget.processGroup ∧
    (startCmd command).sysProcAttr = none := by
  refine ⟨rfl, ?_, rfl⟩
  intro hcontra
  simp [cmdSignalTarget, startCmd] at hcontra

/-- C5: when every watcher.Add succeeds, the startup traversal
terminates without aborting and registers exactly the directories
reachable from the root outside ".git"-named subtrees: the registered
list is the preorder listing with every ".git" directory and its entire
subtree pruned (neither registered nor descended into). -/
theorem c5_walk_registers_all_but_git (path : String) (n : FsNode) :
    walkNode addOkTrue path n [] = ((dirsExceptGit path n).reverse, true) ∧
    ∀ q, q ∈ (walkNode addOkTrue path n []).1 ↔ q ∈ dirsExceptGit path n := by
  have h := walkNode_allOk path n []
  rw [List.append_nil] at h
  refine ⟨h, fun q => ?_⟩
  rw [h]
  exact List.mem_reverse

/-- C6: a watcher.Add failure does NOT merely get logged and skipped —
WatchDir returns the error, and filepath.Walk then aborts the whole
traversal: on root/{a, b} with registration failing only for "root/a",
the walk ends in the aborted state and "root/b", though reachable and
outside any .git subtree, is never registered. -/
theorem c6_add_failure_aborts_walk :
    walkNode addOkC6 "root" treeC6 [] = (["root"], false) ∧
    "root/b" ∈ dirsExceptGit "root" treeC6 ∧
    "root/b" ∉ (walkNode addOkC6 "root" treeC6 []).1 := by
  refine ⟨by decide, by decide, by decide⟩

/-- C7 (amended): once Start has run at least once (the cancel field is
non-nil), calling Stop with no active execution returns normally — the
cancel of the already-cancelled scope is recorded as a no-op and Wait
returns at once since the counter is zero.  (Before any Start, the
cancel field is nil and Stop panics; see the counterexample.) -/
theorem c7_stop_idempotent_after_start (s : RerunState) (g : Nat)
    (hc : s.cancel = some g) (hae : s.activeExec = none) (hco : s.counter = 0) :
    stop s = Except.ok ({ s with cancelled := g :: s.cancelled }, []) := by
  obtain ⟨cmd, ex, cl, cld, nc, co, ae, w, wc⟩ := s
  dsimp only at hc hae hco ⊢
  subst hc; subst hae; subst hco
  simp [stop]

/-- C7 counterexample to the claim as stated: before any Start has ever
been called the cancel field still holds its nil zero value, and Stop
invokes it — a nil-function-call panic, not a harmless no-op. -/
theorem c7_stop_before_start_panics :
    stop (initState "echo hello" ["root"]) = Except.error StopErr.nilCancelPanic := rfl

/-- C7 witness: in the concrete idle state reached by one Start then one
Stop, a second Stop returns normally. -/
theorem c7_stop_idempotent_after_start_witness :
    sIdle.cancel = some 0 ∧ sIdle.activeExec = none ∧ sIdle.counter = 0 ∧
    stop sIdle = Except.ok ({ sIdle with cancelled := [0, 0] }, []) :=
  ⟨rfl, rfl, rfl, c7_stop_idempotent_after_start sIdle 0 rfl rfl rfl⟩

/-- C8 (amended): when `exiting` is true, Start launches nothing — the
completion tracker and the active execution are untouched and no trace
action is emitted — but Start is not a complete no-op: it has already
replaced the cancellation handle with a fresh one (line 36 runs before
the exiting check) and bumped the context generation. -/
theorem c8_start_when_exiting (s : RerunState) (hex : s.exiting = true) :
    start s = ({ s with cancel := some s.nextCtx, nextCtx := s.nextCtx + 1 }, []) ∧
    (start s).1.counter = s.counter ∧
    (start s).1.activeExec = s.activeExec ∧
    (start s).2 = [] := by
  obtain ⟨cmd, ex, cl, cld, nc, co, ae, w, wc⟩ := s
  dsimp only at hex ⊢
  subst hex
  refine ⟨?_, ?_, ?_, ?_⟩ <;> simp [start]

/-- C8 counterexample to the claim as stated: with `exiting` true, Start
does modify the RunnerState — the cancellation handle changes from
generation 5 to a fresh generation 7. -/
theorem c8_start_modifies_cancel_when_exiting :
    sExit.exiting = true ∧ sExit.cancel = some 5 ∧
    (start sExit).1.cancel = some 7 ∧ (start sExit).1 ≠ sExit := by
  refine ⟨rfl, rfl, rfl, ?_⟩
  decide

/-- C8 witness: the amended statement evaluated at the concrete
shutting-down state sExit. -/
theorem c8_start_when_exiting_witness :
    sExit.exiting = true ∧
    (start sExit = ({ sExit with cancel := some 7, nextCtx := 8 }, []) ∧
     (start sExit).1.counter = sExit.counter ∧
     (start sExit).1.activeExec = sExit.activeExec ∧
     (start sExit).2 = []) :=
  ⟨rfl, c8_start_when_exiting sExit rfl⟩

/-- C9 (amended): on an interrupt or terminate signal at any time after
the initial Start has been called (the cancel field non-nil, here in a
loop state with one running execution), the handler sets exiting, stops
the running child (its goroutine completes and the tracker reaches
zero), closes the watch subscription, and the process exits with
status 1.  (A signal in the window before the first Start hits the nil
cancel function and panics instead; see the counterexample.) -/
theorem c9_signal_shutdown (s : RerunState) (a : Nat)
    (hc : s.cancel = some a) (hae : s.activeExec = some a) (hco : s.counter = 1) :
    onSignal s = Except.ok ({ s with
        exiting := true,
        cancelled := a :: s.cancelled,
        activeExec := none,
        counter := 0,
        watcherClosed := true },
      [ExecAction.execEnd a], 1) := by
  obtain ⟨cmd, ex, cl, cld, nc, co, ae, w, wc⟩ := s
  dsimp only at hc hae hco ⊢
  subst hc; subst hae; subst hco
  simp [onSignal, cleanup, stop]

/-- C9 counterexample to the claim as stated ("at any time"): a signal
arriving after NewRerun installed the handler but before the first
Start finds a nil cancel function — cleanup panics inside Stop, the
watcher is never closed and the exit status is not 1. -/
theorem c9_signal_before_start_panics :
    onSignal (initState "echo hello" ["root"]) = Except.error StopErr.nilCancelPanic := rfl

/-- C9 witness: the shutdown sequence evaluated in the concrete mid-run
loop state sLoop. -/
theorem c9_signal_shutdown_witness :
    sLoop.cancel = some 0 ∧ sLoop.activeExec = some 0 ∧ sLoop.counter = 1 ∧
    onSignal sLoop = Except.ok ({ sLoop with
        exiting := true,
        cancelled := [0],
        activeExec := none,
        counter := 0,
        watcherClosed := true },
      [ExecAction.execEnd 0], 1) :=
  ⟨rfl, rfl, rfl, c9_signal_shutdown sLoop 0 rfl rfl rfl⟩

/-- C10: the watcher's error stream is never consumed: the main loop's
select reads only the Events channel, the Events accessor exposes only
that channel, and the loop's entire observable behaviour is independent
of whatever the error stream contains. -/
theorem c10_error_stream_ignored :
    WatcherChan.errors ∉ mainSelectChans ∧
    eventsChanOfRerun = WatcherChan.events ∧
    ∀ (statFn : String → Option FileInfo) (addOk : String → Bool)
      (command : String) (watched0 : List String) (events : List Event)
      (errs1 errs2 : List String),
      runMainFull statFn addOk command watched0 events errs1 =
      runMainFull statFn addOk command watched0 events errs2 :=
  ⟨by decide, rfl, fun _ _ _ _ _ _ _ => rfl⟩
